import Mathlib

/-!
Verification of the nx-microcontroller shared firmware core: the serial
sync engine (src/firmware/Joystick.c, ISR USART1_RX_vect), the report
codec (populate_report_from_serial, switch_report.h), the macro playback
engine (src/firmware/shared/macro_player.c) and the Switch subcommand
response emulator (src/firmware/shared/switch_responses.c), shallowly
embedded as pure Lean functions over lists of byte values (Nat, with
explicit mod 256 where the C uint8 type truncates).
-/

namespace NxMicro

/-- Read byte i of a C uint8 array modelled as a list of Nat; the mod 256
mirrors the uint8 element type. Out-of-range reads yield 0. -/
def byteAt (l : List Nat) (i : Nat) : Nat := l.getD i 0 % 256

/-- One round of the shift/xor loop of avr-libc _crc8_ccitt_update
(external library function called by the ISR): if the top bit of the
8-bit accumulator is set, shift left and xor with 0x07, else just shift. -/
def crc8_round (d : Nat) : Nat :=
  if 128 ≤ d then (d * 2 % 256) ^^^ 7 else d * 2 % 256

/-- avr-libc _crc8_ccitt_update: xor the byte into the accumulator and
run 8 rounds of crc8_round. -/
def crc8_ccitt_update (c b : Nat) : Nat :=
  crc8_round^[8] ((c ^^^ b) % 256)

/-- Running CRC-8-CCITT of a byte list, accumulator initialised to 0 as
in Serial_Input_Packet_t after each reset. -/
def crc8_ccitt (l : List Nat) : Nat := l.foldl crc8_ccitt_update 0

/-- States of the serial sync machine (State_t in Joystick.c). -/
inductive SState where
  | synced
  | syncStart
  | sync1
  | outOfSync
deriving DecidableEq, Repr

/-- Response bytes the ISR can emit via send_byte, as symbolic values
(their numeric values live in the missing Joystick.h and never feed back
into the machine). -/
inductive Resp where
  | syncStart
  | sync1
  | syncOk
  | updateAck
  | updateNack
deriving DecidableEq, Repr

/-- The three command byte constants from Joystick.h (compared against
incoming bytes by the ISR). -/
structure SyncConsts where
  cmdSyncStart : Nat
  cmdSync1 : Nat
  cmdSync2 : Nat

/-- Modelled from the spec: Joystick.h is not under src; the scenario in
the spec fixes the three sync command bytes as 0xA5, 0xA6, 0xA7. -/
def specSyncConsts : SyncConsts := ⟨0xA5, 0xA6, 0xA7⟩

/-- Mutable state of the ISR: current sync state, the accumulated packet
bytes (serialInput.input up to received_bytes) and the running checksum
(serialInput.crc8_ccitt). -/
structure SyncState where
  st : SState
  buf : List Nat
  crc : Nat
deriving DecidableEq, Repr

/-- The state-specific part of ISR(USART1_RX_vect) on receiving byte b:
returns the new state, the list of bytes sent back (as Resp values) and
the handoff (some frame exactly when has_new_serial is raised). -/
def syncStepA (c : SyncConsts) (s : SyncState) (b : Nat) :
    SyncState × List Resp × Option (List Nat) :=
  match s.st with
  | SState.synced =>
      if s.buf.length < 8 then
        ({ s with buf := s.buf ++ [b], crc := crc8_ccitt_update s.crc b }, [], none)
      else if s.crc = b then
        ({ s with buf := [], crc := 0 }, [Resp.updateAck], some s.buf)
      else if b = c.cmdSyncStart then
        ({ st := SState.syncStart, buf := [], crc := 0 }, [Resp.syncStart], none)
      else
        ({ s with buf := [], crc := 0 }, [Resp.updateNack], none)
  | SState.syncStart =>
      if b = c.cmdSync1 then ({ s with st := SState.sync1 }, [Resp.sync1], none)
      else ({ s with st := SState.outOfSync }, [], none)
  | SState.sync1 =>
      if b = c.cmdSync2 then ({ s with st := SState.synced }, [Resp.syncOk], none)
      else ({ s with st := SState.outOfSync }, [], none)
  | SState.outOfSync => (s, [], none)

/-- Full ISR body: the state-specific handling followed by the final
re-sync check (state OUT_OF_SYNC and byte COMMAND_SYNC_START moves to
SYNC_START and emits RESP_SYNC_START). -/
def syncStep (c : SyncConsts) (s : SyncState) (b : Nat) :
    SyncState × List Resp × Option (List Nat) :=
  let r := syncStepA c s b
  if r.1.st = SState.outOfSync ∧ b = c.cmdSyncStart then
    ({ r.1 with st := SState.syncStart }, r.2.1 ++ [Resp.syncStart], r.2.2)
  else r

/-- Run the ISR over a byte sequence, keeping only the state. -/
def syncRun (c : SyncConsts) (s : SyncState) (bs : List Nat) : SyncState :=
  bs.foldl (fun s b => (syncStep c s b).1) s

example : crc8_ccitt_update 0 0 = 0 := by decide

example :
    (syncRun specSyncConsts ⟨SState.outOfSync, [], 0⟩ [0xA5, 0xA6, 0xA7]).st
      = SState.synced := by decide

/-! ## Report codec (populate_report_from_serial in Joystick.c,
populate_report_from_macro in shared/switch_report.h) -/

/-- The SMOOTH macro of populate_report_from_serial: unsigned average of
the previous smoothed value and the new input, right-shifted by one, cast
back to uint8. Arguments in the C macro order SMOOTH(new, prev). -/
def smooth (new prev : Nat) : Nat := (prev + new) / 2 % 256

/-- The four per-axis smoothing accumulators (static prev_lx .. prev_ry
in populate_report_from_serial, initialised to 0x80). -/
structure AxisState where
  lx : Nat
  ly : Nat
  rx : Nat
  ry : Nat
deriving DecidableEq, Repr

/-- Initial smoothing state: all four accumulators centered at 0x80. -/
def axisInit : AxisState := ⟨0x80, 0x80, 0x80, 0x80⟩

/-- populate_report_from_serial (Joystick.c): swap the button bytes,
clamp the hat to 0..8, rescale 4-bit-packed axes (all four axis bytes at
most 0x0F) by a left shift of 4, smooth each axis against its
accumulator, and emit the 8-byte report with vendor byte 0; returns the
report together with the updated accumulators. -/
def populate_report_from_serial (inp : List Nat) (prev : AxisState) :
    List Nat × AxisState :=
  let buttons := (byteAt inp 0 * 256 + byteAt inp 1) % 65536
  let hat := if byteAt inp 2 ≤ 8 then byteAt inp 2 else 8
  let lx0 := byteAt inp 3
  let ly0 := byteAt inp 4
  let rx0 := byteAt inp 5
  let ry0 := byteAt inp 6
  let rescale : Bool := lx0 ≤ 0x0F ∧ ly0 ≤ 0x0F ∧ rx0 ≤ 0x0F ∧ ry0 ≤ 0x0F
  let lx1 := if rescale then lx0 * 16 % 256 else lx0
  let ly1 := if rescale then ly0 * 16 % 256 else ly0
  let rx1 := if rescale then rx0 * 16 % 256 else rx0
  let ry1 := if rescale then ry0 * 16 % 256 else ry0
  let lx := smooth lx1 prev.lx
  let ly := smooth ly1 prev.ly
  let rx := smooth rx1 prev.rx
  let ry := smooth ry1 prev.ry
  ([buttons % 256, buttons / 256 % 256, hat, lx, ly, rx, ry, 0],
   ⟨lx, ly, rx, ry⟩)

/-- populate_report_from_macro (shared/switch_report.h): swap the button
bytes, clamp the hat, copy the four axis bytes directly (no rescale, no
smoothing) and fix the vendor byte at 0. -/
def populate_report_from_macro_pkt (inp : List Nat) : List Nat :=
  let buttons := (byteAt inp 0 * 256 + byteAt inp 1) % 65536
  [buttons % 256, buttons / 256 % 256,
   if byteAt inp 2 ≤ 8 then byteAt inp 2 else 8,
   byteAt inp 3, byteAt inp 4, byteAt inp 5, byteAt inp 6, 0]

/-! ## Macro playback engine (shared/macro_player.c) -/

/-- neutral_report from shared/switch_report.h. -/
def neutral_report : List Nat := [0x00, 0x00, 0x08, 0x80, 0x80, 0x80, 0x80, 0x00]

/-- b_button_report from shared/switch_report.h. -/
def b_button_report : List Nat := [0x02, 0x00, 0x08, 0x80, 0x80, 0x80, 0x80, 0x00]

/-- One frame of the embedded macro table (EmbeddedMacroFrame_t):
a timestamp in milliseconds and an 8-byte packet. -/
structure MacroFrame where
  ts : Nat
  pkt : List Nat
deriving DecidableEq, Repr

/-- An embedded macro configuration: the generated frame table
(embedded_macro_frames, ascending timestamps) and the
EMBEDDED_MACRO_LOOP build flag. -/
structure MacroCfg where
  frames : List MacroFrame
  loopEnabled : Bool
deriving DecidableEq, Repr

/-- MACRO_READ_FRAME at an index (out-of-range reads, impossible in the
generated table, default to a zero frame). -/
def frameAt (frames : List MacroFrame) (i : Nat) : MacroFrame :=
  frames.getD i ⟨0, []⟩

/-- The uint32 modulus. -/
def U32 : Nat := 2 ^ 32

/-- uint32 subtraction a - b with wraparound, as in
playback_time = elapsed_millis - macro_start_millis. -/
def usub32 (a b : Nat) : Nat := (a % U32 + (U32 - b % U32)) % U32

/-- The mutable statics of macro_player.c: macro_playback_index,
macro_start_millis, macro_started, startup_delay_done,
input_priming_done. The static elapsed_millis is omitted: it is
overwritten from the argument at every entry, so it carries no state
between calls. -/
structure PlayerState where
  idx : Nat
  startMs : Nat
  started : Bool
  startupDelayDone : Bool
  inputPrimingDone : Bool
deriving DecidableEq, Repr

/-- Player state right after macro_player_init. -/
def playerInit : PlayerState := ⟨0, 0, false, false, false⟩

/-- The frame-advance while loop of macro_player_get_report: starting
from index i, advance while the next timestamp has been reached; fuel
bounds the recursion (the loop runs at most frames.length times, its
guard stops at the last index). -/
def advanceIdx (frames : List MacroFrame) (pt : Nat) : Nat → Nat → Nat
  | i, 0 => i
  | i, fuel + 1 =>
      if i < frames.length - 1 ∧ (frameAt frames (i + 1)).ts ≤ pt then
        advanceIdx frames pt (i + 1) fuel
      else i

/-- macro_player_get_report (shared/macro_player.c): phases gated on the
caller-supplied clock, then timestamp-indexed frame playback with loop or
hold-last termination. cfg is some table when the firmware is built with
EMBEDDED_MACRO_ENABLED and none otherwise. rep is the caller report
buffer: it is returned unchanged on the two invocations that only flip a
phase flag (the C writes nothing into *report there). Result:
(return value, report buffer contents, new state). -/
def macro_player_get_report (cfg : Option MacroCfg) (current : Nat)
    (s : PlayerState) (rep : List Nat) : Bool × List Nat × PlayerState :=
  let cur := current % U32
  if s.startupDelayDone = false then
    if cur < 1000 then (false, neutral_report, s)
    else (false, rep, { s with startupDelayDone := true })
  else if s.inputPrimingDone = false then
    if cur < 80 then (false, b_button_report, s)
    else if cur < 160 then (false, neutral_report, s)
    else (false, rep, { s with inputPrimingDone := true })
  else
    match cfg with
    | none => (false, neutral_report, s)
    | some m =>
        let s1 := if s.started = false then
            { s with started := true, startMs := cur, idx := 0 } else s
        let pt := usub32 current s1.startMs
        let n := m.frames.length
        if n - 1 ≤ s1.idx ∧ (frameAt m.frames (n - 1)).ts ≤ pt then
          if m.loopEnabled then
            let j := advanceIdx m.frames 0 0 n
            (true, populate_report_from_macro_pkt (frameAt m.frames j).pkt,
             { s1 with idx := j, startMs := cur })
          else
            (true, populate_report_from_macro_pkt
              (frameAt m.frames (n - 1)).pkt, s1)
        else
          let j := advanceIdx m.frames pt s1.idx n
          (true, populate_report_from_macro_pkt (frameAt m.frames j).pkt,
           { s1 with idx := j })

/-- Drive the macro player over a list of clock values, threading the
caller report buffer through (a no-write call leaves the previous buffer
contents in place, as the C caller reuses its stack buffer). Returns the
per-call (return value, buffer) pairs and the final state. -/
def runPlayer (cfg : Option MacroCfg) (times : List Nat) (s : PlayerState)
    (rep : List Nat) : List (Bool × List Nat) × PlayerState :=
  match times with
  | [] => ([], s)
  | t :: ts =>
      let r := macro_player_get_report cfg t s rep
      let rest := runPlayer cfg ts r.2.2 r.2.1
      ((r.1, r.2.1) :: rest.1, rest.2)

/-! ## Subcommand response emulator (shared/switch_responses.c) -/

/-- Overwrite buf at offset off with data, as memcpy(&buf[off], data, n)
does on a C array (writes past the end, undefined in C, extend the
list). -/
def writeAt (buf : List Nat) (off : Nat) (data : List Nat) : List Nat :=
  buf.take off ++ data ++ buf.drop (off + data.length)

/-- Read exactly n bytes starting from a pointer modelled as a list:
memcpy with a fixed length (short lists, impossible for the 8-byte
current_report in C, are zero padded). -/
def takeExact (n : Nat) (l : List Nat) : List Nat :=
  l.take n ++ List.replicate (n - l.length) 0

/-- The mac_address static of switch_responses.c. -/
def mac_address : List Nat := [0x79, 0x05, 0x44, 0xC6, 0xB5, 0x65]

/-- Modelled from the spec: datatypes.h is not under src; the
Switch_Subcommand_t identifiers carry the subcommand IDs of the Nintendo
protocol notes the source cites (bluetooth_hid_subcommands_notes.md). -/
def SUBCOMMAND_BLUETOOTH_MANUAL_PAIRING : Nat := 0x01

/-- Modelled from the spec: datatypes.h subcommand ID (see
SUBCOMMAND_BLUETOOTH_MANUAL_PAIRING). -/
def SUBCOMMAND_REQUEST_DEVICE_INFO : Nat := 0x02

/-- Modelled from the spec: datatypes.h subcommand ID. -/
def SUBCOMMAND_SET_INPUT_REPORT_MODE : Nat := 0x03

/-- Modelled from the spec: datatypes.h subcommand ID. -/
def SUBCOMMAND_TRIGGER_BUTTONS_ELAPSED_TIME : Nat := 0x04

/-- Modelled from the spec: datatypes.h subcommand ID. -/
def SUBCOMMAND_SET_SHIPMENT_LOW_POWER_STATE : Nat := 0x08

/-- Modelled from the spec: datatypes.h subcommand ID. -/
def SUBCOMMAND_SPI_FLASH_READ : Nat := 0x10

/-- Modelled from the spec: datatypes.h subcommand ID. -/
def SUBCOMMAND_SET_NFC_IR_MCU_CONFIG : Nat := 0x21

/-- Modelled from the spec: datatypes.h subcommand ID. -/
def SUBCOMMAND_SET_PLAYER_LIGHTS : Nat := 0x30

/-- Modelled from the spec: datatypes.h subcommand ID. -/
def SUBCOMMAND_SET_HOME_LIGHTS : Nat := 0x38

/-- Modelled from the spec: datatypes.h subcommand ID. -/
def SUBCOMMAND_ENABLE_IMU : Nat := 0x40

/-- Modelled from the spec: datatypes.h subcommand ID. -/
def SUBCOMMAND_ENABLE_VIBRATION : Nat := 0x48

/-- Modelled from the spec: emulated_spi.c is not under src; the
CalibrationStore is a fixed read-only byte image queried by (address,
length), so spi_read returns length consecutive bytes of an abstract
image img starting at address. -/
def spi_read (img : Nat → Nat) (addr size : Nat) : List Nat :=
  (List.range size).map fun i => img (addr + i) % 256

/-- The response slot statics of switch_responses.c: reply_buffer (64
bytes), reply_length, next_packet_ready and the shared counter. -/
structure SwitchState where
  reply : List Nat
  replyLen : Nat
  ready : Bool
  counter : Nat
deriving DecidableEq, Repr

/-- prepare_reply: drop if a reply is pending, else zero the buffer,
write code and command at offsets 0 and 1 and the payload from offset 2,
set the length and raise the pending flag. The C length parameter and
the reply_length static are uint8, so the payload length passed by a
caller is truncated mod 256, the copy covers that many bytes, and the
stored length wraps mod 256. -/
def prepare_reply (code cmd : Nat) (data : List Nat) (s : SwitchState) :
    SwitchState :=
  if s.ready then s
  else
    let len := data.length % 256
    { reply := writeAt (writeAt (List.replicate 64 0) 0 [code % 256, cmd % 256]) 2
        (data.take len)
      replyLen := (2 + len) % 256
      ready := true
      counter := s.counter }

/-- prepare_uart_reply: drop if pending, else build the 0x21-framed
reply: report type, incremented counter, the 8-byte current report, the
ack code and subcommand at offsets 10 and 11, then the payload. As in
prepare_reply, the C length parameter and reply_length are uint8: the
payload length is truncated mod 256 and the stored length wraps mod 256.
A truncated length in 53..255 would make the C memcpy write past the
64-byte reply_buffer (an out-of-bounds write); theorems about such
replies therefore carry a fits-the-slot bound. -/
def prepare_uart_reply (code sub : Nat) (data : List Nat) (cur : List Nat)
    (s : SwitchState) : SwitchState :=
  if s.ready then s
  else
    let c := (s.counter + 3) % 256
    let len := data.length % 256
    let b1 := writeAt (List.replicate 64 0) 0 [0x21, c]
    let b2 := writeAt b1 2 (takeExact 8 cur)
    let b3 := writeAt b2 10 [code % 256, sub % 256]
    { reply := writeAt b3 12 (data.take len)
      replyLen := (12 + len) % 256
      ready := true
      counter := c }

/-- prepare_spi_reply: read size bytes from the emulated flash and wrap
them as [address lo, address hi, 0, 0, size] ++ bytes inside a
0x90-acknowledged uart reply for the SPI flash read subcommand. -/
def prepare_spi_reply (img : Nat → Nat) (addr size : Nat) (cur : List Nat)
    (s : SwitchState) : SwitchState :=
  prepare_uart_reply 0x90 SUBCOMMAND_SPI_FLASH_READ
    ([addr % 256, addr / 256 % 256, 0, 0, size % 256] ++ spi_read img addr size)
    cur s

/-- prepare_standard_report: drop if pending, else increment the counter
and build the standard report 0x30, counter, 8-byte current report
(length 10). -/
def prepare_standard_report (cur : List Nat) (s : SwitchState) : SwitchState :=
  if s.ready then s
  else
    let c := (s.counter + 3) % 256
    { reply := writeAt (writeAt (List.replicate 64 0) 0 [0x30, c]) 2 (takeExact 8 cur)
      replyLen := 10
      ready := true
      counter := c }

/-- prepare_8101: the fixed device identification reply 0x81 0x01 with
payload 0x00, 0x03 (Pro Controller) and the MAC address. -/
def prepare_8101 (s : SwitchState) : SwitchState :=
  prepare_reply 0x81 0x01 ([0x00, 0x03] ++ mac_address) s

/-- switch_responses_init: zeroed slot, then the initial 0x81 0x01
response is prepared. -/
def switch_responses_init : SwitchState :=
  prepare_8101 { reply := List.replicate 64 0, replyLen := 0, ready := false,
                 counter := 0 }

/-- switch_process_out_report: dispatch on an OUT report. Byte 0 selects
device management (0x80) or, with length above 16, a subcommand request
whose ID sits at byte 10; the SPI read parses a little-endian address
from bytes 11 and 12 and a size from byte 15. -/
def switch_process_out_report (img : Nat → Nat) (data : List Nat) (len : Nat)
    (s : SwitchState) : SwitchState :=
  if byteAt data 0 = 0x80 then
    if byteAt data 1 = 0x01 then prepare_8101 s
    else if byteAt data 1 = 0x02 ∨ byteAt data 1 = 0x03 then
      prepare_reply 0x81 (byteAt data 1) [] s
    else if byteAt data 1 = 0x04 then { s with ready := false }
    else prepare_reply 0x81 (byteAt data 1) [] s
  else if byteAt data 0 = 0x01 ∧ 16 < len then
    let sub := byteAt data 10
    let dummy : List Nat := List.replicate 8 0
    if sub = SUBCOMMAND_BLUETOOTH_MANUAL_PAIRING then
      prepare_uart_reply 0x81 sub [0x03] dummy s
    else if sub = SUBCOMMAND_REQUEST_DEVICE_INFO then
      prepare_uart_reply 0x82 sub
        ([0x03, 0x48, 0x03, 0x02] ++ mac_address.reverse ++ [0x03, 0x02]) dummy s
    else if sub = SUBCOMMAND_SET_INPUT_REPORT_MODE
        ∨ sub = SUBCOMMAND_SET_SHIPMENT_LOW_POWER_STATE
        ∨ sub = SUBCOMMAND_SET_PLAYER_LIGHTS
        ∨ sub = SUBCOMMAND_SET_HOME_LIGHTS
        ∨ sub = SUBCOMMAND_ENABLE_IMU
        ∨ sub = SUBCOMMAND_ENABLE_VIBRATION then
      prepare_uart_reply 0x80 sub [] dummy s
    else if sub = SUBCOMMAND_TRIGGER_BUTTONS_ELAPSED_TIME then
      prepare_uart_reply 0x83 sub [] dummy s
    else if sub = SUBCOMMAND_SET_NFC_IR_MCU_CONFIG then
      prepare_uart_reply 0xA0 sub [0x01, 0x00, 0xFF, 0x00, 0x03, 0x00, 0x05, 0x01]
        dummy s
    else if sub = SUBCOMMAND_SPI_FLASH_READ then
      prepare_spi_reply img (byteAt data 12 * 256 + byteAt data 11)
        (byteAt data 15) dummy s
    else prepare_uart_reply 0x80 sub [] dummy s
  else s

/-- switch_get_in_report: refuse buffers below the reply slot size (64),
else fall back to a standard report when nothing is pending, copy out
reply_length bytes and clear the pending flag. Returns the bytes written
and the new state. -/
def switch_get_in_report (bufSize : Nat) (cur : List Nat) (s : SwitchState) :
    List Nat × SwitchState :=
  if bufSize < 64 then ([], s)
  else
    let s1 := if s.ready = false then prepare_standard_report cur s else s
    (s1.reply.take s1.replyLen, { s1 with ready := false })

example : (switch_get_in_report 64 neutral_report switch_responses_init).1
    = [0x81, 0x01, 0x00, 0x03, 0x79, 0x05, 0x44, 0xC6, 0xB5, 0x65] := by decide

/-! ## Serial sync engine theorems -/

/-- CRC of the empty buffer is the reset accumulator 0. -/
lemma crc8_ccitt_nil : crc8_ccitt [] = 0 := rfl

/-- The running checksum invariant of the ISR: the crc field always holds
the streaming CRC-8-CCITT of the accumulated bytes; every step preserves
it. -/
lemma syncStep_crc_invariant (c : SyncConsts) (s : SyncState) (b : Nat)
    (h : s.crc = crc8_ccitt s.buf) :
    (syncStep c s b).1.crc = crc8_ccitt (syncStep c s b).1.buf := by
  obtain ⟨st, buf, crc⟩ := s
  simp only at h
  subst h
  cases st
  case synced =>
    by_cases h1 : buf.length < 8
    · simp [syncStep, syncStepA, h1, crc8_ccitt, List.foldl_append]
    · by_cases h2 : crc8_ccitt buf = b
      · simp [syncStep, syncStepA, h1, h2, crc8_ccitt_nil]
      · by_cases h3 : b = c.cmdSyncStart
        · have h4 : ¬ crc8_ccitt buf = c.cmdSyncStart := by rw [← h3]; exact h2
          simp [syncStep, syncStepA, h1, h2, h3, h4, crc8_ccitt_nil]
        · simp [syncStep, syncStepA, h1, h2, h3, crc8_ccitt_nil]
  case syncStart =>
    by_cases h1 : b = c.cmdSync1
    · simp [syncStep, syncStepA, h1]
    · by_cases h3 : b = c.cmdSyncStart
      · have h4 : ¬ c.cmdSyncStart = c.cmdSync1 := by rw [← h3]; exact h1
        simp [syncStep, syncStepA, h1, h3, h4]
      · simp [syncStep, syncStepA, h1, h3]
  case sync1 =>
    by_cases h1 : b = c.cmdSync2
    · simp [syncStep, syncStepA, h1]
    · by_cases h3 : b = c.cmdSyncStart
      · have h4 : ¬ c.cmdSyncStart = c.cmdSync2 := by rw [← h3]; exact h1
        simp [syncStep, syncStepA, h1, h3, h4]
      · simp [syncStep, syncStepA, h1, h3]
  case outOfSync =>
    by_cases h3 : b = c.cmdSyncStart <;> simp [syncStep, syncStepA, h3]

/-- Claim C1: in the Synced state with 8 accumulated payload bytes and
the running checksum equal to the CRC-8-CCITT of the payload, the 9th
byte decides: a matching checksum byte emits RESP_UPDATE_ACK and hands
off exactly the one accumulated 8-byte frame; a mismatching byte equal to
SYNC_START_CMD moves to SyncStart and emits RESP_SYNC_START with no
handoff; any other mismatching byte emits RESP_UPDATE_NACK with no
handoff; in all three cases the packet buffer and the running checksum
are reset to zero. -/
theorem C1_sync_checksum (c : SyncConsts) (buf : List Nat) (b : Nat)
    (hlen : buf.length = 8) :
    (b = crc8_ccitt buf →
      syncStep c ⟨SState.synced, buf, crc8_ccitt buf⟩ b
        = (⟨SState.synced, [], 0⟩, [Resp.updateAck], some buf)
      ∧ buf.length = 8)
  ∧ (b ≠ crc8_ccitt buf → b = c.cmdSyncStart →
      syncStep c ⟨SState.synced, buf, crc8_ccitt buf⟩ b
        = (⟨SState.syncStart, [], 0⟩, [Resp.syncStart], none))
  ∧ (b ≠ crc8_ccitt buf → b ≠ c.cmdSyncStart →
      syncStep c ⟨SState.synced, buf, crc8_ccitt buf⟩ b
        = (⟨SState.synced, [], 0⟩, [Resp.updateNack], none)) := by
  have hnlt : ¬ buf.length < 8 := by omega
  refine ⟨fun hb => ⟨?_, hlen⟩, fun hb1 hb2 => ?_, fun hb1 hb2 => ?_⟩
  · simp [syncStep, syncStepA, hnlt, hb]
  · have h4 : ¬ crc8_ccitt buf = c.cmdSyncStart := by
      rw [← hb2]; exact fun h => hb1 h.symm
    simp [syncStep, syncStepA, hnlt, h4, hb2]
  · have h4 : ¬ crc8_ccitt buf = b := fun h => hb1 h.symm
    simp [syncStep, syncStepA, hnlt, h4, hb2]

/-- Witness for C1 at a concrete all-zero payload with its correct
checksum byte. -/
theorem C1_sync_checksum_witness :
    syncStep specSyncConsts
        ⟨SState.synced, List.replicate 8 0, crc8_ccitt (List.replicate 8 0)⟩
        (crc8_ccitt (List.replicate 8 0))
      = (⟨SState.synced, [], 0⟩, [Resp.updateAck], some (List.replicate 8 0)) :=
  ((C1_sync_checksum specSyncConsts (List.replicate 8 0)
      (crc8_ccitt (List.replicate 8 0)) (by decide)).1 rfl).1

/-- A byte other than SYNC_START_CMD never takes the machine out of the
Synced state (it is either accumulated or treated as a checksum byte). -/
lemma synced_stays_synced (c : SyncConsts) (s : SyncState) (b : Nat)
    (hst : s.st = SState.synced) (hb : b ≠ c.cmdSyncStart) :
    (syncStep c s b).1.st = SState.synced := by
  unfold syncStep syncStepA
  rw [hst]
  by_cases h1 : s.buf.length < 8
  · simp [h1]
  · by_cases h2 : s.crc = b
    · simp [h1, h2]
    · simp [h1, h2, hb]

/-- In the SyncStart state, byte SYNC_CMD_1 advances to Sync1. -/
lemma syncStart_advances (c : SyncConsts) (s : SyncState)
    (hst : s.st = SState.syncStart) :
    (syncStep c s c.cmdSync1).1.st = SState.sync1 := by
  unfold syncStep syncStepA
  rw [hst]
  simp

/-- In the Sync1 state, byte SYNC_CMD_2 completes the handshake. -/
lemma sync1_advances (c : SyncConsts) (s : SyncState)
    (hst : s.st = SState.sync1) :
    (syncStep c s c.cmdSync2).1.st = SState.synced := by
  unfold syncStep syncStepA
  rw [hst]
  simp

/-- After byte SYNC_START_CMD the machine is in SyncStart or still in
Synced, whatever the prior state (the final re-sync check catches every
path that lands in OutOfSync). -/
lemma after_sync_start (c : SyncConsts) (s : SyncState)
    (h1 : c.cmdSync1 ≠ c.cmdSyncStart) (h2 : c.cmdSync2 ≠ c.cmdSyncStart) :
    (syncStep c s c.cmdSyncStart).1.st = SState.syncStart
      ∨ (syncStep c s c.cmdSyncStart).1.st = SState.synced := by
  obtain ⟨st, buf, crc⟩ := s
  cases st
  case synced =>
    by_cases hl : buf.length < 8
    · right; simp [syncStep, syncStepA, hl]
    · by_cases hc : crc = c.cmdSyncStart
      · right; simp [syncStep, syncStepA, hl, hc]
      · left; simp [syncStep, syncStepA, hl, hc]
  case syncStart =>
    left
    have h4 : ¬ c.cmdSyncStart = c.cmdSync1 := fun h => h1 h.symm
    simp [syncStep, syncStepA, h4]
  case sync1 =>
    left
    have h4 : ¬ c.cmdSyncStart = c.cmdSync2 := fun h => h2 h.symm
    simp [syncStep, syncStepA, h4]
  case outOfSync => left; simp [syncStep, syncStepA]

/-- Claim C2: from every state of the sync machine, whatever is in the
packet buffer and checksum, feeding the 3-byte handshake SYNC_START,
SYNC_1, SYNC_2 leaves the machine Synced after exactly those 3 bytes
(the handshake bytes are pairwise distinguishable from SYNC_START_CMD,
as the spec byte values 0xA5, 0xA6, 0xA7 are). -/
theorem C2_handshake_resync (c : SyncConsts) (s : SyncState)
    (h1 : c.cmdSync1 ≠ c.cmdSyncStart) (h2 : c.cmdSync2 ≠ c.cmdSyncStart) :
    (syncRun c s [c.cmdSyncStart, c.cmdSync1, c.cmdSync2]).st
      = SState.synced := by
  show (syncStep c (syncStep c (syncStep c s c.cmdSyncStart).1 c.cmdSync1).1
      c.cmdSync2).1.st = SState.synced
  rcases after_sync_start c s h1 h2 with h | h
  · exact sync1_advances c _ (syncStart_advances c _ h)
  · exact synced_stays_synced c _ _ (synced_stays_synced c _ _ h h1) h2

/-- Witness for C2: the spec constants and a Synced state holding 5
stale payload bytes re-synchronize in exactly 3 bytes. -/
theorem C2_handshake_resync_witness :
    (syncRun specSyncConsts ⟨SState.synced, [1, 2, 3, 4, 5], 99⟩
        [0xA5, 0xA6, 0xA7]).st = SState.synced :=
  C2_handshake_resync specSyncConsts ⟨SState.synced, [1, 2, 3, 4, 5], 99⟩
    (by decide) (by decide)

/-! ## Macro playback engine theorems -/

/-- The macro table invariant: timestamps ascend along the table. -/
def tsSorted (frames : List MacroFrame) : Prop :=
  List.Pairwise (fun a b => a.ts ≤ b.ts) frames

/-- Sortedness transfers to indexed reads. -/
lemma tsSorted_frameAt (frames : List MacroFrame) (h : tsSorted frames)
    (i j : Nat) (hij : i ≤ j) (hj : j < frames.length) :
    (frameAt frames i).ts ≤ (frameAt frames j).ts := by
  rcases Nat.eq_or_lt_of_le hij with rfl | hlt
  · exact le_refl _
  · have hi : i < frames.length := lt_trans hlt hj
    rw [frameAt, frameAt, List.getD_eq_getElem _ _ hi, List.getD_eq_getElem _ _ hj]
    exact List.pairwise_iff_getElem.mp h i j hi hj hlt

/-- The frame-advance loop never moves the cursor backward. -/
lemma advanceIdx_ge (frames : List MacroFrame) (pt : Nat) :
    ∀ fuel i, i ≤ advanceIdx frames pt i fuel := by
  intro fuel
  induction fuel with
  | zero => intro i; simp [advanceIdx]
  | succ f ih =>
      intro i
      unfold advanceIdx
      split
      · exact le_trans (Nat.le_succ i) (ih (i + 1))
      · exact le_refl i

/-- With ascending timestamps and a playback time at or past the last
frame, the advance loop lands exactly on the last index when given
enough fuel. -/
lemma advanceIdx_last (frames : List MacroFrame) (pt : Nat)
    (hs : tsSorted frames)
    (hpt : (frameAt frames (frames.length - 1)).ts ≤ pt) :
    ∀ fuel i, frames.length - 1 - i ≤ fuel → i ≤ frames.length - 1 →
      advanceIdx frames pt i fuel = frames.length - 1 := by
  intro fuel
  induction fuel with
  | zero =>
      intro i hfi hi
      simp only [advanceIdx]
      omega
  | succ f ih =>
      intro i hfi hi
      by_cases hlt : i < frames.length - 1
      · have hts : (frameAt frames (i + 1)).ts ≤ pt :=
          le_trans (tsSorted_frameAt frames hs (i + 1) (frames.length - 1)
            (by omega) (by omega)) hpt
        unfold advanceIdx
        rw [if_pos ⟨hlt, hts⟩]
        exact ih (i + 1) (by omega) (by omega)
      · have h2 : i = frames.length - 1 := by omega
        unfold advanceIdx
        rw [if_neg (by simp [hlt])]
        exact h2

/-- The loop-restart boundary of macro_player_get_report: both startup
phases done, looping enabled, the cursor at or past the last frame and
the playback time at or past the last timestamp. -/
def loopRestart (m : MacroCfg) (current : Nat) (s : PlayerState) : Prop :=
  s.startupDelayDone = true ∧ s.inputPrimingDone = true
    ∧ m.loopEnabled = true ∧ m.frames.length - 1 ≤ s.idx
    ∧ (frameAt m.frames (m.frames.length - 1)).ts ≤ usub32 current s.startMs

/-- Claim C4: for a fixed macro table, once playback has started the
cursor index never decreases across an invocation except at a
loop-restart boundary; and in play-once mode, on any invocation whose
playback time has reached the last timestamp the emitted report is
exactly the last frame converted by the codec (and the return value
signals playback). -/
theorem C4_macro_monotone (m : MacroCfg) (current : Nat) (s : PlayerState)
    (rep : List Nat) (hstart : s.started = true) (hs : tsSorted m.frames) :
    (s.idx ≤ (macro_player_get_report (some m) current s rep).2.2.idx
      ∨ loopRestart m current s)
  ∧ (m.loopEnabled = false → s.startupDelayDone = true →
      s.inputPrimingDone = true →
      (frameAt m.frames (m.frames.length - 1)).ts ≤ usub32 current s.startMs →
      (macro_player_get_report (some m) current s rep).2.1
          = populate_report_from_macro_pkt
              (frameAt m.frames (m.frames.length - 1)).pkt
        ∧ (macro_player_get_report (some m) current s rep).1 = true) := by
  constructor
  · cases hsd : s.startupDelayDone
    case false =>
      left
      by_cases hc : current % U32 < 1000 <;>
        simp [macro_player_get_report, hsd, hc]
    case true =>
      cases hpd : s.inputPrimingDone
      case false =>
        left
        by_cases hc : current % U32 < 80
        · simp [macro_player_get_report, hsd, hpd, hc]
        · by_cases hc2 : current % U32 < 160 <;>
            simp [macro_player_get_report, hsd, hpd, hc, hc2]
      case true =>
        by_cases hgate : m.frames.length - 1 ≤ s.idx ∧
            (frameAt m.frames (m.frames.length - 1)).ts ≤ usub32 current s.startMs
        · cases hloop : m.loopEnabled with
          | true => exact Or.inr ⟨hsd, hpd, hloop, hgate.1, hgate.2⟩
          | false =>
            left
            simp [macro_player_get_report, hsd, hpd, hstart, hgate, hloop]
        · left
          simp only [macro_player_get_report, hsd, hpd, hstart]
          simp only [Bool.true_eq_false, if_false, if_neg hgate]
          exact advanceIdx_ge m.frames (usub32 current s.startMs)
            m.frames.length s.idx
  · intro hloop hsd hpd hpt
    by_cases hidx : m.frames.length - 1 ≤ s.idx
    · simp [macro_player_get_report, hsd, hpd, hstart, hloop, hidx, hpt]
    · have hadv : advanceIdx m.frames (usub32 current s.startMs) s.idx
          m.frames.length = m.frames.length - 1 :=
        advanceIdx_last m.frames (usub32 current s.startMs) hs hpt
          m.frames.length s.idx (by omega) (by omega)
      simp [macro_player_get_report, hsd, hpd, hstart, hidx, hadv]

/-- Witness for C4: a started player over a sorted 2-frame play-once
table, invoked past the last timestamp. -/
theorem C4_macro_monotone_witness :
    (1 ≤ (macro_player_get_report
        (some ⟨[⟨0, neutral_report⟩, ⟨100, b_button_report⟩], false⟩) 200
        ⟨1, 0, true, true, true⟩ (List.replicate 8 0)).2.2.idx
      ∨ loopRestart ⟨[⟨0, neutral_report⟩, ⟨100, b_button_report⟩], false⟩ 200
          ⟨1, 0, true, true, true⟩)
  ∧ (macro_player_get_report
        (some ⟨[⟨0, neutral_report⟩, ⟨100, b_button_report⟩], false⟩) 200
        ⟨1, 0, true, true, true⟩ (List.replicate 8 0)).2.1
      = populate_report_from_macro_pkt b_button_report := by
  have h := C4_macro_monotone ⟨[⟨0, neutral_report⟩, ⟨100, b_button_report⟩], false⟩
    200 ⟨1, 0, true, true, true⟩ (List.replicate 8 0) rfl
    (by simp [tsSorted])
  exact ⟨h.1, by
    have h2 := h.2 rfl rfl rfl (by decide)
    simpa using h2.1⟩

/-- Claim C10: the two phase-transition invocations (startup delay first
observed complete, priming first observed complete) return false and
leave the caller report buffer untouched; every other invocation fully
determines all 8 report bytes, independent of the prior buffer
contents. -/
theorem C10_report_write (cfg : Option MacroCfg) (current : Nat)
    (s : PlayerState) (rep : List Nat) :
    ((s.startupDelayDone = false ∧ 1000 ≤ current % U32)
        ∨ (s.startupDelayDone = true ∧ s.inputPrimingDone = false
            ∧ 160 ≤ current % U32) →
      (macro_player_get_report cfg current s rep).2.1 = rep
        ∧ (macro_player_get_report cfg current s rep).1 = false)
  ∧ (∀ rep2,
      ¬ ((s.startupDelayDone = false ∧ 1000 ≤ current % U32)
        ∨ (s.startupDelayDone = true ∧ s.inputPrimingDone = false
            ∧ 160 ≤ current % U32)) →
      (macro_player_get_report cfg current s rep).2.1
        = (macro_player_get_report cfg current s rep2).2.1) := by
  constructor
  · rintro (⟨hsd, hc⟩ | ⟨hsd, hpd, hc⟩)
    · simp [macro_player_get_report, hsd, Nat.not_lt.mpr hc]
    · have h80 : ¬ current % U32 < 80 := by omega
      have h160 : ¬ current % U32 < 160 := by omega
      simp [macro_player_get_report, hsd, hpd, h80, h160]
  · intro rep2 hn
    cases hsd : s.startupDelayDone
    case false =>
      have hc : current % U32 < 1000 := by
        rcases Nat.lt_or_ge (current % U32) 1000 with h | h
        · exact h
        · exact absurd (Or.inl ⟨hsd, h⟩) hn
      simp [macro_player_get_report, hsd, hc]
    case true =>
      cases hpd : s.inputPrimingDone
      case false =>
        have hc : current % U32 < 160 := by
          rcases Nat.lt_or_ge (current % U32) 160 with h | h
          · exact h
          · exact absurd (Or.inr ⟨hsd, hpd, h⟩) hn
        by_cases h80 : current % U32 < 80 <;>
          simp [macro_player_get_report, hsd, hpd, hc, h80]
      case true =>
        cases cfg <;> simp [macro_player_get_report, hsd, hpd]

/-- Witness for C10 at both transition invocations and one writing
invocation. -/
theorem C10_report_write_witness :
    ((macro_player_get_report none 1200 playerInit [7, 7, 7, 7, 7, 7, 7, 7]).2.1
        = [7, 7, 7, 7, 7, 7, 7, 7]
      ∧ (macro_player_get_report none 1200 playerInit
          [7, 7, 7, 7, 7, 7, 7, 7]).1 = false)
  ∧ (macro_player_get_report none 500 playerInit [7, 7, 7, 7, 7, 7, 7, 7]).2.1
      = (macro_player_get_report none 500 playerInit [9, 9, 9]).2.1 :=
  ⟨(C10_report_write none 1200 playerInit [7, 7, 7, 7, 7, 7, 7, 7]).1
      (Or.inl ⟨rfl, by decide⟩),
   (C10_report_write none 500 playerInit [7, 7, 7, 7, 7, 7, 7, 7]).2
      [9, 9, 9] (by decide)⟩

/-- A one-frame macro table used to evaluate the code on the failing
call sequence of claim C5. -/
def c5cfg : MacroCfg := ⟨[⟨0, [0, 0, 8, 0x80, 0x80, 0x80, 0x80, 0]⟩], false⟩

/-- The clock values the platform loops feed the player: one call every
8 ms, here up to 1016 ms. -/
def c5times : List Nat := (List.range 127).map fun k => 8 * (k + 1)

set_option maxRecDepth 100000 in
/-- Claim C5 evaluated on the code: driving macro_player_get_report from
init with the 8 ms caller cadence, the priming phase is marked done and
macro playback starts, yet the B-button-only report is never emitted;
the two 80 ms priming sub-phases the spec requires never occur because
the phase comparisons use the absolute caller clock. -/
theorem C5_priming_skipped :
    (runPlayer (some c5cfg) c5times playerInit (List.replicate 8 0)).2.inputPrimingDone
        = true
  ∧ (runPlayer (some c5cfg) c5times playerInit (List.replicate 8 0)).2.started = true
  ∧ ∀ o ∈ (runPlayer (some c5cfg) c5times playerInit (List.replicate 8 0)).1,
      o.2 ≠ b_button_report := by decide

/-! ## Subcommand response emulator theorems -/

/-- Every byte read from a modelled uint8 array is below 256. -/
lemma byteAt_lt (l : List Nat) (i : Nat) : byteAt l i < 256 :=
  Nat.mod_lt _ (by norm_num)

/-- An in-bounds overwrite keeps the buffer length. -/
lemma writeAt_length (buf data : List Nat) (off : Nat)
    (h : off + data.length ≤ buf.length) :
    (writeAt buf off data).length = buf.length := by
  simp [writeAt]
  omega

/-- Overwrites never shrink the buffer. -/
lemma writeAt_length_ge (buf data : List Nat) (off : Nat) :
    buf.length ≤ (writeAt buf off data).length := by
  simp [writeAt]
  omega

/-- Dropping up to the overwrite offset exposes the written data. -/
lemma writeAt_drop (buf data : List Nat) (off : Nat) (h : off ≤ buf.length) :
    (writeAt buf off data).drop off = data ++ buf.drop (off + data.length) := by
  rw [writeAt, List.append_assoc,
    List.drop_append_of_le_length (by simp; omega)]
  have hnil : (buf.take off).drop off = [] := by
    rw [List.drop_eq_nil_iff]
    simp
  rw [hnil, List.nil_append]

/-- takeExact always returns the requested number of bytes. -/
lemma takeExact_length (n : Nat) (l : List Nat) : (takeExact n l).length = n := by
  simp [takeExact]
  omega

/-- Reading exactly the length of the list is the list itself. -/
lemma takeExact_self (l : List Nat) : takeExact l.length l = l := by
  simp [takeExact]

/-- An emulated SPI read returns exactly the requested byte count. -/
lemma spi_read_length (img : Nat → Nat) (addr size : Nat) :
    (spi_read img addr size).length = size := by
  simp [spi_read]

/-- A byte list of length 8 is literally its 8 elements. -/
lemma length_eq_eight (l : List Nat) (h : l.length = 8) :
    ∃ b0 b1 b2 b3 b4 b5 b6 b7, l = [b0, b1, b2, b3, b4, b5, b6, b7] := by
  rcases l with _ | ⟨b0, _ | ⟨b1, _ | ⟨b2, _ | ⟨b3, _ | ⟨b4, _ | ⟨b5, _ |
    ⟨b6, _ | ⟨b7, _ | ⟨b8, t⟩⟩⟩⟩⟩⟩⟩⟩⟩ <;> simp at h
  exact ⟨b0, b1, b2, b3, b4, b5, b6, b7, rfl⟩

/-- Computed form of the standard report poll: type byte 0x30, the
incremented counter, then the 8 current report bytes. -/
lemma prepare_standard_take (cur : List Nat) (s : SwitchState)
    (hcr : cur.length = 8) (hr : s.ready = false) :
    (prepare_standard_report cur s).reply.take
        (prepare_standard_report cur s).replyLen
      = 0x30 :: (s.counter + 3) % 256 :: cur := by
  obtain ⟨b0, b1, b2, b3, b4, b5, b6, b7, rfl⟩ := length_eq_eight cur hcr
  unfold prepare_standard_report
  rw [if_neg (by simp [hr])]
  exact rfl

/-- A poll with an adequate buffer always clears the pending flag. -/
lemma get_in_report_clears (bs : Nat) (cr : List Nat) (s : SwitchState)
    (h : 64 ≤ bs) : (switch_get_in_report bs cr s).2.ready = false := by
  simp [switch_get_in_report, Nat.not_lt.mpr h]

/-- Claim C3: while a reply is pending, processing any OUT report leaves
the buffered reply bytes and length unchanged; a poll with an adequate
buffer clears the pending flag; and a second poll with no intervening
request returns a standard report: 0x30, the counter, then the 8-byte
current report. -/
theorem C3_single_pending (img : Nat → Nat) (data : List Nat) (len bs : Nat)
    (cr : List Nat) (s : SwitchState) :
    (s.ready = true →
      (switch_process_out_report img data len s).reply = s.reply
      ∧ (switch_process_out_report img data len s).replyLen = s.replyLen)
  ∧ (64 ≤ bs → (switch_get_in_report bs cr s).2.ready = false)
  ∧ (64 ≤ bs → cr.length = 8 →
      (switch_get_in_report bs cr ((switch_get_in_report bs cr s).2)).1
        = 0x30 :: ((switch_get_in_report bs cr s).2.counter + 3) % 256 :: cr) := by
  refine ⟨fun hr => ?_, fun hb => get_in_report_clears bs cr s hb,
    fun hb hcr => ?_⟩
  · unfold switch_process_out_report prepare_8101 prepare_spi_reply
      prepare_uart_reply prepare_reply
    simp only [hr, if_true]
    split_ifs <;> simp
  · have h1 : (switch_get_in_report bs cr s).2.ready = false :=
      get_in_report_clears bs cr s hb
    conv_lhs => rw [switch_get_in_report]
    rw [if_neg (Nat.not_lt.mpr hb)]
    simp only [h1, if_true, if_pos rfl]
    exact prepare_standard_take cr _ hcr h1

/-- Witness for C3 from the post-init state (initial reply pending). -/
theorem C3_single_pending_witness :
    ((switch_process_out_report (fun _ => 0)
        [0x01, 0, 0, 0, 0, 0, 0, 0, 0, 0, 0x02, 0, 0, 0, 0, 0, 0] 17
        switch_responses_init).reply = switch_responses_init.reply
      ∧ (switch_process_out_report (fun _ => 0)
          [0x01, 0, 0, 0, 0, 0, 0, 0, 0, 0, 0x02, 0, 0, 0, 0, 0, 0] 17
          switch_responses_init).replyLen = switch_responses_init.replyLen)
  ∧ (switch_get_in_report 64 neutral_report switch_responses_init).2.ready
      = false
  ∧ (switch_get_in_report 64 neutral_report
        ((switch_get_in_report 64 neutral_report switch_responses_init).2)).1
      = 0x30 :: ((switch_get_in_report 64 neutral_report
            switch_responses_init).2.counter + 3) % 256 :: neutral_report :=
  ⟨(C3_single_pending (fun _ => 0)
      [0x01, 0, 0, 0, 0, 0, 0, 0, 0, 0, 0x02, 0, 0, 0, 0, 0, 0] 17 64
      neutral_report switch_responses_init).1 (by decide),
   (C3_single_pending (fun _ => 0)
      [0x01, 0, 0, 0, 0, 0, 0, 0, 0, 0, 0x02, 0, 0, 0, 0, 0, 0] 17 64
      neutral_report switch_responses_init).2.1 (by decide),
   (C3_single_pending (fun _ => 0)
      [0x01, 0, 0, 0, 0, 0, 0, 0, 0, 0, 0x02, 0, 0, 0, 0, 0, 0] 17 64
      neutral_report switch_responses_init).2.2 (by decide) (by decide)⟩

/-- Payload placement inside a uart reply whose payload fits the 64-byte
slot (so the uint8 length neither wraps nor reaches past the buffer):
the payload sits verbatim at offset 12 and the length is 12 plus the
payload length. -/
lemma prepare_uart_payload (code sub : Nat) (d cur : List Nat)
    (s : SwitchState) (hr : s.ready = false) (hd : d.length ≤ 52) :
    ((prepare_uart_reply code sub d cur s).reply.drop 12).take d.length = d
      ∧ (prepare_uart_reply code sub d cur s).replyLen = 12 + d.length := by
  unfold prepare_uart_reply
  rw [if_neg (by simp [hr])]
  have em : d.length % 256 = d.length := Nat.mod_eq_of_lt (by omega)
  have l1 : (writeAt (List.replicate 64 0) 0 [0x21, (s.counter + 3) % 256]).length
      = 64 := writeAt_length _ _ _ (by simp)
  have l2 : (writeAt (writeAt (List.replicate 64 0) 0
      [0x21, (s.counter + 3) % 256]) 2 (takeExact 8 cur)).length = 64 := by
    rw [writeAt_length _ _ _ (by rw [l1, takeExact_length]; omega), l1]
  have l3 : (writeAt (writeAt (writeAt (List.replicate 64 0) 0
      [0x21, (s.counter + 3) % 256]) 2 (takeExact 8 cur)) 10
      [code % 256, sub % 256]).length = 64 := by
    rw [writeAt_length _ _ _ (by rw [l2]; simp), l2]
  refine ⟨?_, ?_⟩
  · show ((writeAt (writeAt (writeAt (writeAt (List.replicate 64 0) 0
        [0x21, (s.counter + 3) % 256]) 2 (takeExact 8 cur)) 10
        [code % 256, sub % 256]) 12 (d.take (d.length % 256))).drop 12).take
          d.length = d
    rw [em, List.take_length, writeAt_drop _ _ _ (by rw [l3]; omega),
      List.take_left]
  · show (12 + d.length % 256) % 256 = 12 + d.length
    rw [em]
    exact Nat.mod_eq_of_lt (by omega)

set_option maxRecDepth 100000 in
/-- Counterexample to claim C6 as stated: an SPI read request for count
255 makes prepare_spi_reply pass a 260-byte payload whose uint8 length
parameter wraps to 4, so the prepared reply carries only the first 4
payload bytes and reply_length 16, not the address, count and 255
calibration bytes with reply_length 17 + 255 the claim promises. -/
theorem C6_spi_count_wraps :
    (switch_process_out_report (fun i => i)
        [0x01, 0, 0, 0, 0, 0, 0, 0, 0, 0, 0x10, 0, 0, 0, 0, 255, 0] 17
        ⟨List.replicate 64 0, 0, false, 0⟩).replyLen = 16
  ∧ (switch_process_out_report (fun i => i)
        [0x01, 0, 0, 0, 0, 0, 0, 0, 0, 0, 0x10, 0, 0, 0, 0, 255, 0] 17
        ⟨List.replicate 64 0, 0, false, 0⟩).replyLen ≠ 17 + 255
  ∧ ((switch_process_out_report (fun i => i)
        [0x01, 0, 0, 0, 0, 0, 0, 0, 0, 0, 0x10, 0, 0, 0, 0, 255, 0] 17
        ⟨List.replicate 64 0, 0, false, 0⟩).reply.drop 12).take (5 + 255)
      ≠ [0, 0, 0, 0, 255] ++ spi_read (fun i => i) 0 255 := by decide

/-- Claim C6 amended: an SPI-flash-read subcommand request (subcommand
0x10 at byte 10, little-endian address at bytes 11 and 12, byte count at
byte 15) whose count is at most 47, so the 5 + count payload fits the
64-byte reply slot and the uint8 length neither wraps nor overruns,
prepares a reply whose subcommand payload is the address little-endian,
two zero bytes, the count, then exactly count bytes read verbatim from
the calibration image at that address; counts 251 to 255 wrap the uint8
length and truncate the reply, and counts 48 to 250 would overrun the
reply buffer in C. -/
theorem C6_spi_flash_reply (img : Nat → Nat) (data : List Nat) (len : Nat)
    (s : SwitchState) (hr : s.ready = false)
    (h0 : byteAt data 0 = 0x01) (hlen : 16 < len)
    (hsub : byteAt data 10 = 0x10) (hsz : byteAt data 15 ≤ 47) :
    ((switch_process_out_report img data len s).reply.drop 12).take
        (5 + byteAt data 15)
      = [byteAt data 11, byteAt data 12, 0x00, 0x00, byteAt data 15]
          ++ spi_read img (byteAt data 12 * 256 + byteAt data 11)
              (byteAt data 15)
      ∧ (switch_process_out_report img data len s).replyLen
          = 17 + byteAt data 15 := by
  have h11 := byteAt_lt data 11
  have h12 := byteAt_lt data 12
  have h15 := byteAt_lt data 15
  have e1 : (byteAt data 12 * 256 + byteAt data 11) % 256 = byteAt data 11 := by
    omega
  have e2 : (byteAt data 12 * 256 + byteAt data 11) / 256 % 256
      = byteAt data 12 := by omega
  have e3 : byteAt data 15 % 256 = byteAt data 15 := Nat.mod_eq_of_lt h15
  have hd : switch_process_out_report img data len s
      = prepare_uart_reply 0x90 SUBCOMMAND_SPI_FLASH_READ
          ([byteAt data 11, byteAt data 12, 0x00, 0x00, byteAt data 15]
            ++ spi_read img (byteAt data 12 * 256 + byteAt data 11)
                (byteAt data 15))
          (List.replicate 8 0) s := by
    unfold switch_process_out_report prepare_spi_reply
    simp [h0, hsub, hlen, SUBCOMMAND_BLUETOOTH_MANUAL_PAIRING,
      SUBCOMMAND_REQUEST_DEVICE_INFO, SUBCOMMAND_SET_INPUT_REPORT_MODE,
      SUBCOMMAND_SET_SHIPMENT_LOW_POWER_STATE, SUBCOMMAND_SET_PLAYER_LIGHTS,
      SUBCOMMAND_SET_HOME_LIGHTS, SUBCOMMAND_ENABLE_IMU,
      SUBCOMMAND_ENABLE_VIBRATION, SUBCOMMAND_TRIGGER_BUTTONS_ELAPSED_TIME,
      SUBCOMMAND_SET_NFC_IR_MCU_CONFIG, SUBCOMMAND_SPI_FLASH_READ,
      e1, e2, e3]
  rw [hd]
  have hplen : ([byteAt data 11, byteAt data 12, 0x00, 0x00, byteAt data 15]
      ++ spi_read img (byteAt data 12 * 256 + byteAt data 11)
          (byteAt data 15)).length = 5 + byteAt data 15 := by
    simp only [List.length_append, List.length_cons, List.length_nil,
      spi_read_length]
  have hp := prepare_uart_payload 0x90 SUBCOMMAND_SPI_FLASH_READ
    ([byteAt data 11, byteAt data 12, 0x00, 0x00, byteAt data 15]
      ++ spi_read img (byteAt data 12 * 256 + byteAt data 11) (byteAt data 15))
    (List.replicate 8 0) s hr (by rw [hplen]; omega)
  rw [hplen] at hp
  refine ⟨hp.1, ?_⟩
  rw [hp.2]
  omega

/-- Witness for C6: the calibration-read scenario, address 0x0000 and
length 18, against a concrete image. -/
theorem C6_spi_flash_reply_witness :
    ((switch_process_out_report (fun i => i)
        [0x01, 0, 0, 0, 0, 0, 0, 0, 0, 0, 0x10, 0x00, 0x00, 0, 0, 18, 0] 17
        { reply := List.replicate 64 0, replyLen := 0, ready := false,
          counter := 0 }).reply.drop 12).take (5 + 18)
      = [0x00, 0x00, 0x00, 0x00, 18] ++ spi_read (fun i => i) 0 18 := by
  have h := C6_spi_flash_reply (fun i => i)
    [0x01, 0, 0, 0, 0, 0, 0, 0, 0, 0, 0x10, 0x00, 0x00, 0, 0, 18, 0] 17
    { reply := List.replicate 64 0, replyLen := 0, ready := false,
      counter := 0 } (by decide) (by decide) (by decide) (by decide) (by decide)
  exact h.1

/-- The response slot invariant: the buffer never shrinks below its 64
bytes and a pending reply always has at least the 2 header bytes. -/
def SlotInv (s : SwitchState) : Prop :=
  64 ≤ s.reply.length ∧ (s.ready = true → 2 ≤ s.replyLen)

/-- switch_responses_init establishes the slot invariant. -/
lemma slotInv_init : SlotInv switch_responses_init :=
  ⟨by decide, fun _ => by decide⟩

/-- prepare_reply preserves the slot invariant for payloads whose uint8
length does not wrap the stored reply_length below 2. -/
lemma slotInv_prepare_reply (code cmd : Nat) (d : List Nat) (s : SwitchState)
    (hlen : d.length % 256 ≤ 243) (h : SlotInv s) :
    SlotInv (prepare_reply code cmd d s) := by
  unfold prepare_reply
  split_ifs with hr
  · exact h
  · refine ⟨?_, fun _ => ?_⟩
    · show 64 ≤ (writeAt (writeAt (List.replicate 64 0) 0
        [code % 256, cmd % 256]) 2 (d.take (d.length % 256))).length
      calc (64 : Nat) = (List.replicate 64 (0 : Nat)).length := by simp
      _ ≤ _ := le_trans (writeAt_length_ge _ _ _) (writeAt_length_ge _ _ _)
    · show 2 ≤ (2 + d.length % 256) % 256
      omega

/-- prepare_uart_reply preserves the slot invariant for payloads whose
uint8 length does not wrap the stored reply_length below 2. -/
lemma slotInv_prepare_uart (code sub : Nat) (d cur : List Nat)
    (s : SwitchState) (hlen : d.length % 256 ≤ 243) (h : SlotInv s) :
    SlotInv (prepare_uart_reply code sub d cur s) := by
  unfold prepare_uart_reply
  split_ifs with hr
  · exact h
  · refine ⟨?_, fun _ => ?_⟩
    · show 64 ≤ (writeAt (writeAt (writeAt (writeAt (List.replicate 64 0) 0
        [0x21, (s.counter + 3) % 256]) 2 (takeExact 8 cur)) 10
        [code % 256, sub % 256]) 12 (d.take (d.length % 256))).length
      calc (64 : Nat) = (List.replicate 64 (0 : Nat)).length := by simp
      _ ≤ _ := le_trans (writeAt_length_ge _ _ _)
          (le_trans (writeAt_length_ge _ _ _)
            (le_trans (writeAt_length_ge _ _ _) (writeAt_length_ge _ _ _)))
    · show 2 ≤ (12 + d.length % 256) % 256
      omega

/-- prepare_standard_report preserves the slot invariant. -/
lemma slotInv_prepare_standard (cur : List Nat) (s : SwitchState)
    (h : SlotInv s) : SlotInv (prepare_standard_report cur s) := by
  unfold prepare_standard_report
  split_ifs with hr
  · exact h
  · refine ⟨?_, fun _ => ?_⟩
    · show 64 ≤ (writeAt (writeAt (List.replicate 64 0) 0
        [0x30, (s.counter + 3) % 256]) 2 (takeExact 8 cur)).length
      calc (64 : Nat) = (List.replicate 64 (0 : Nat)).length := by simp
      _ ≤ _ := le_trans (writeAt_length_ge _ _ _) (writeAt_length_ge _ _ _)
    · show 2 ≤ 10
      omega

/-- prepare_8101 preserves the slot invariant. -/
lemma slotInv_prepare_8101 (s : SwitchState) (h : SlotInv s) :
    SlotInv (prepare_8101 s) :=
  slotInv_prepare_reply _ _ _ _ (by decide) h

/-- prepare_spi_reply preserves the slot invariant for sizes whose
5 + size payload length, wrapped to uint8, keeps the reply_length at or
above 2. -/
lemma slotInv_prepare_spi (img : Nat → Nat) (addr size : Nat)
    (cur : List Nat) (s : SwitchState) (hlen : (5 + size) % 256 ≤ 243)
    (h : SlotInv s) : SlotInv (prepare_spi_reply img addr size cur s) := by
  apply slotInv_prepare_uart
  · have hl : ([addr % 256, addr / 256 % 256, 0, 0, size % 256]
        ++ spi_read img addr size).length = 5 + size := by
      simp only [List.length_append, List.length_cons, List.length_nil,
        spi_read_length]
    rw [hl]
    exact hlen
  · exact h

/-- switch_process_out_report preserves the slot invariant on requests
with defined behavior: SPI read counts either fit the reply slot or wrap
the uint8 length without overrunning the buffer (counts 48 to 250 would
be an out-of-bounds memcpy in C). -/
lemma slotInv_process (img : Nat → Nat) (data : List Nat) (len : Nat)
    (s : SwitchState)
    (hdef : byteAt data 15 ≤ 47 ∨ 251 ≤ byteAt data 15) (h : SlotInv s) :
    SlotInv (switch_process_out_report img data len s) := by
  have hb := byteAt_lt data 15
  have hspi : (5 + byteAt data 15) % 256 ≤ 243 := by
    rcases hdef with hc | hc <;> omega
  unfold switch_process_out_report
  dsimp only
  by_cases h0 : byteAt data 0 = 0x80
  · rw [if_pos h0]
    by_cases g1 : byteAt data 1 = 0x01
    · rw [if_pos g1]
      exact slotInv_prepare_8101 _ h
    · rw [if_neg g1]
      by_cases g2 : byteAt data 1 = 0x02 ∨ byteAt data 1 = 0x03
      · rw [if_pos g2]
        exact slotInv_prepare_reply _ _ _ _ (by decide) h
      · rw [if_neg g2]
        by_cases g3 : byteAt data 1 = 0x04
        · rw [if_pos g3]
          exact ⟨h.1, fun hh => by simp at hh⟩
        · rw [if_neg g3]
          exact slotInv_prepare_reply _ _ _ _ (by decide) h
  · rw [if_neg h0]
    by_cases g1 : byteAt data 0 = 0x01 ∧ 16 < len
    · rw [if_pos g1]
      by_cases c1 : byteAt data 10 = SUBCOMMAND_BLUETOOTH_MANUAL_PAIRING
      · rw [if_pos c1]
        exact slotInv_prepare_uart _ _ _ _ _ (by decide) h
      · rw [if_neg c1]
        by_cases c2 : byteAt data 10 = SUBCOMMAND_REQUEST_DEVICE_INFO
        · rw [if_pos c2]
          exact slotInv_prepare_uart _ _ _ _ _ (by decide) h
        · rw [if_neg c2]
          by_cases c3 : byteAt data 10 = SUBCOMMAND_SET_INPUT_REPORT_MODE
              ∨ byteAt data 10 = SUBCOMMAND_SET_SHIPMENT_LOW_POWER_STATE
              ∨ byteAt data 10 = SUBCOMMAND_SET_PLAYER_LIGHTS
              ∨ byteAt data 10 = SUBCOMMAND_SET_HOME_LIGHTS
              ∨ byteAt data 10 = SUBCOMMAND_ENABLE_IMU
              ∨ byteAt data 10 = SUBCOMMAND_ENABLE_VIBRATION
          · rw [if_pos c3]
            exact slotInv_prepare_uart _ _ _ _ _ (by decide) h
          · rw [if_neg c3]
            by_cases c4 : byteAt data 10 = SUBCOMMAND_TRIGGER_BUTTONS_ELAPSED_TIME
            · rw [if_pos c4]
              exact slotInv_prepare_uart _ _ _ _ _ (by decide) h
            · rw [if_neg c4]
              by_cases c5 : byteAt data 10 = SUBCOMMAND_SET_NFC_IR_MCU_CONFIG
              · rw [if_pos c5]
                exact slotInv_prepare_uart _ _ _ _ _ (by decide) h
              · rw [if_neg c5]
                by_cases c6 : byteAt data 10 = SUBCOMMAND_SPI_FLASH_READ
                · rw [if_pos c6]
                  exact slotInv_prepare_spi _ _ _ _ _ hspi h
                · rw [if_neg c6]
                  exact slotInv_prepare_uart _ _ _ _ _ (by decide) h
    · rw [if_neg g1]
      exact h

/-- switch_get_in_report preserves the slot invariant. -/
lemma slotInv_get (bs : Nat) (cr : List Nat) (s : SwitchState)
    (h : SlotInv s) : SlotInv (switch_get_in_report bs cr s).2 := by
  unfold switch_get_in_report
  split_ifs with h1 h2
  · exact h
  · exact ⟨(slotInv_prepare_standard cr s h).1, fun hh => by simp at hh⟩
  · exact ⟨h.1, fun hh => by simp at hh⟩

/-- Counterexample to claim C7 as stated: with a zero-size caller buffer
the poll returns an empty report, so the poll can fail for small
buffers. -/
theorem C7_small_buffer_empty :
    (switch_get_in_report 0 neutral_report switch_responses_init).1 = [] := by
  decide

/-- Claim C7 amended: for caller buffers of at least the reply slot size
(64), the poll never fails: it returns a non-empty report, either the
pending reply or a synthesized standard report; for smaller buffers it
returns no bytes and leaves the slot untouched. -/
theorem C7_poll_never_fails (bs : Nat) (cr : List Nat) (s : SwitchState)
    (hinv : SlotInv s) :
    (64 ≤ bs → (switch_get_in_report bs cr s).1 ≠ [])
  ∧ (bs < 64 → (switch_get_in_report bs cr s).1 = []
      ∧ (switch_get_in_report bs cr s).2 = s) := by
  constructor
  · intro hb
    unfold switch_get_in_report
    rw [if_neg (Nat.not_lt.mpr hb)]
    simp only []
    cases hready : s.ready
    case false =>
      rw [if_pos rfl]
      have hlen : 2 ≤ (prepare_standard_report cr s).replyLen := by
        unfold prepare_standard_report
        rw [if_neg (by simp [hready])]
        exact (by norm_num : (2 : Nat) ≤ 10)
      have hbuf : 64 ≤ (prepare_standard_report cr s).reply.length :=
        (slotInv_prepare_standard cr s hinv).1
      rw [← List.length_pos, List.length_take]
      omega
    case true =>
      rw [if_neg (by simp [hready])]
      have hlen : 2 ≤ s.replyLen := hinv.2 hready
      have hbuf : 64 ≤ s.reply.length := hinv.1
      rw [← List.length_pos, List.length_take]
      omega
  · intro hb
    unfold switch_get_in_report
    rw [if_pos hb]
    exact ⟨rfl, rfl⟩

/-- Witness for C7 amended, from the post-init state with a 64-byte
buffer and a too-small buffer. -/
theorem C7_poll_never_fails_witness :
    (switch_get_in_report 64 neutral_report switch_responses_init).1 ≠ []
  ∧ (switch_get_in_report 63 neutral_report switch_responses_init).1 = [] :=
  ⟨(C7_poll_never_fails 64 neutral_report switch_responses_init
      ⟨by decide, fun _ => by decide⟩).1 (by decide),
   ((C7_poll_never_fails 63 neutral_report switch_responses_init
      ⟨by decide, fun _ => by decide⟩).2 (by decide)).1⟩

/-! ## Smoothing filter theorems -/

/-- With byte-range arguments the uint8 cast in SMOOTH is the identity. -/
lemma smooth_eq (v p : Nat) (hv : v ≤ 255) (hp : p ≤ 255) :
    smooth v p = (p + v) / 2 := by
  unfold smooth
  apply Nat.mod_eq_of_lt
  omega

/-- From above the filter steps to v plus half the remaining distance. -/
lemma smooth_above (v p : Nat) (hv : v ≤ 255) (hp : p ≤ 255) (hvp : v ≤ p) :
    smooth v p = v + (p - v) / 2 := by
  rw [smooth_eq v p hv hp]
  omega

/-- Closed form of the iterated filter from above: the distance halves
(rounding down) each step. -/
lemma iterate_above (v : Nat) (hv : v ≤ 255) :
    ∀ k p, p ≤ 255 → v ≤ p → (smooth v)^[k] p = v + (p - v) / 2 ^ k := by
  intro k
  induction k with
  | zero =>
      intro p _ hvp
      simp only [Function.iterate_zero, id_eq, pow_zero, Nat.div_one]
      omega
  | succ k ih =>
      intro p hp hvp
      rw [Function.iterate_succ_apply, smooth_above v p hv hp hvp,
        ih (v + (p - v) / 2) (by omega) (by omega)]
      have h2 : v + (p - v) / 2 - v = (p - v) / 2 := by omega
      rw [h2, Nat.div_div_eq_div_mul, ← Nat.pow_succ']

/-- From below the filter steps to v minus half the distance, rounded
up: it can never cross v. -/
lemma smooth_below (v p : Nat) (hv : v ≤ 255) (hp : p ≤ 255) (hpv : p < v) :
    smooth v p = v - (v - p + 1) / 2 := by
  rw [smooth_eq v p hv hp]
  omega

/-- A fixed point iterates to itself. -/
lemma iterate_fixed (f : Nat → Nat) (x : Nat) (hf : f x = x) :
    ∀ k, f^[k] x = x := by
  intro k
  induction k with
  | zero => simp
  | succ k ih => rw [Function.iterate_succ_apply, hf, ih]

/-- From below the iterates stay strictly below v (and within byte
range, at or above the start). -/
lemma below_stays (v p : Nat) (hv : v ≤ 255) (hp : p ≤ 255) (hpv : p < v) :
    ∀ k, (smooth v)^[k] p < v ∧ (smooth v)^[k] p ≤ 255
      ∧ p ≤ (smooth v)^[k] p := by
  intro k
  induction k with
  | zero => simp [hpv, hp]
  | succ k ih =>
      rw [Function.iterate_succ_apply']
      obtain ⟨h1, h2, h3⟩ := ih
      rw [smooth_eq v _ hv h2]
      refine ⟨by omega, by omega, by omega⟩

/-- From below the iterates converge to v - 1 within v - p - 1 steps. -/
lemma below_converges (v : Nat) (hv : v ≤ 255) :
    ∀ e p, p ≤ 255 → p < v → v - p = e →
      ∀ k, e - 1 ≤ k → (smooth v)^[k] p = v - 1 := by
  intro e
  induction e using Nat.strong_induction_on with
  | _ e ih =>
    intro p hp hpv he k hk
    rcases Nat.lt_or_ge e 2 with he2 | he2
    · have hpe : p = v - 1 := by omega
      subst hpe
      have hfix : smooth v (v - 1) = v - 1 := by
        rw [smooth_eq v (v - 1) hv (by omega)]
        omega
      rw [iterate_fixed (smooth v) (v - 1) hfix k]
    · obtain ⟨k1, rfl⟩ : ∃ k1, k = k1 + 1 := ⟨k - 1, by omega⟩
      rw [Function.iterate_succ_apply,
        smooth_below v p hv hp hpv]
      exact ih ((e + 1) / 2) (by omega) (v - (v - p + 1) / 2) (by omega)
        (by omega) (by omega) k1 (by omega)

/-- Counterexample to claim C8 as stated: feeding v = 0x81 from the
actual initial accumulator 0x80 (distance 1, so the claimed bound is 0
iterations) never converges to v: the filter is stuck at 0x80 forever,
so convergence to exactly v fails. -/
theorem C8_smoothing_stuck_below :
    smooth 0x81 0x80 = 0x80
  ∧ (smooth 0x81)^[8] 0x80 = 0x80
  ∧ (0x80 : Nat) ≠ 0x81 := by decide

/-- Claim C8 amended: every output of the smoothing update lies between
the two values averaged; when the initial accumulator is at or above v
the filter converges to exactly v within floor(log2 (initial - v)) + 1
iterations; when the initial accumulator is below v the iterates never
reach v and instead converge to v - 1 within v - initial - 1
iterations. -/
theorem C8_smoothing_convergence (v p : Nat) (hv : v ≤ 255) (hp : p ≤ 255) :
    (min p v ≤ smooth v p ∧ smooth v p ≤ max p v)
  ∧ (v ≤ p → ∀ k, Nat.log2 (p - v) + 1 ≤ k → (smooth v)^[k] p = v)
  ∧ (p < v → (∀ k, (smooth v)^[k] p ≠ v)
      ∧ ∀ k, v - p - 1 ≤ k → (smooth v)^[k] p = v - 1) := by
  refine ⟨?_, fun hvp k hk => ?_, fun hpv => ⟨fun k => ?_, fun k hk => ?_⟩⟩
  · rw [smooth_eq v p hv hp]
    constructor <;> omega
  · rw [iterate_above v hv k p hp hvp]
    have h1 : p - v < 2 ^ (Nat.log2 (p - v) + 1) := by
      rw [Nat.log2_eq_log_two]
      exact Nat.lt_pow_succ_log_self (by norm_num) _
    have h2 : (2 : Nat) ^ (Nat.log2 (p - v) + 1) ≤ 2 ^ k :=
      Nat.pow_le_pow_right (by norm_num) hk
    have h3 : (p - v) / 2 ^ k = 0 := Nat.div_eq_of_lt (lt_of_lt_of_le h1 h2)
    omega
  · exact Nat.ne_of_lt (below_stays v p hv hp hpv k).1
  · exact below_converges v hv (v - p) p hp hpv rfl k hk

/-- Witness for C8 amended: v = 0x10 from the centered accumulator 0x80
(distance 112, log2 gives 6) converges in 8 iterations; v = 0x90 from
0x80 never reaches 0x90 and sits at 0x8F after 15 iterations. -/
theorem C8_smoothing_convergence_witness :
    (smooth 0x10)^[8] 0x80 = 0x10
  ∧ (smooth 0x90)^[8] 0x80 ≠ 0x90
  ∧ (smooth 0x90)^[15] 0x80 = 0x8F :=
  ⟨(C8_smoothing_convergence 0x10 0x80 (by decide) (by decide)).2.1
      (by decide) 8 (by
        have h : Nat.log2 (0x80 - 0x10) < 8 := by
          rw [Nat.log2_lt (by norm_num)]
          norm_num
        omega),
   ((C8_smoothing_convergence 0x90 0x80 (by decide) (by decide)).2.2
      (by decide)).1 8,
   ((C8_smoothing_convergence 0x90 0x80 (by decide) (by decide)).2.2
      (by decide)).2 15 (by decide)⟩

/-! ## Report codec rescale theorems -/

/-- Counterexample to claim C9 as stated: on the macro-playback path a
frame whose axis bytes are all 1 is emitted with axis byte 1, not
1 * 16 = 16: populate_report_from_macro applies no rescale shift. -/
theorem C9_macro_no_rescale :
    (populate_report_from_macro_pkt [0, 0, 8, 1, 1, 1, 1, 0]).getD 3 0 = 1
  ∧ (populate_report_from_macro_pkt [0, 0, 8, 1, 1, 1, 1, 0]).getD 3 0
      ≠ 1 * 16 := by decide

/-- Claim C9 amended: the left shift by 4 of axis bytes that are all at
most 0x0F happens only on the serial path, before smoothing: there each
axis field of the report is the smoothed average of the accumulator and
the input byte times 16; the macro path copies the axis bytes verbatim,
with no rescale. -/
theorem C9_rescale_serial_only (inp : List Nat) (prev : AxisState)
    (h3 : byteAt inp 3 ≤ 0x0F) (h4 : byteAt inp 4 ≤ 0x0F)
    (h5 : byteAt inp 5 ≤ 0x0F) (h6 : byteAt inp 6 ≤ 0x0F)
    (hp3 : prev.lx ≤ 255) (hp4 : prev.ly ≤ 255) (hp5 : prev.rx ≤ 255)
    (hp6 : prev.ry ≤ 255) :
    ((populate_report_from_serial inp prev).1.getD 3 0
        = (prev.lx + byteAt inp 3 * 16) / 2
      ∧ (populate_report_from_serial inp prev).1.getD 4 0
        = (prev.ly + byteAt inp 4 * 16) / 2
      ∧ (populate_report_from_serial inp prev).1.getD 5 0
        = (prev.rx + byteAt inp 5 * 16) / 2
      ∧ (populate_report_from_serial inp prev).1.getD 6 0
        = (prev.ry + byteAt inp 6 * 16) / 2)
  ∧ ((populate_report_from_macro_pkt inp).getD 3 0 = byteAt inp 3
      ∧ (populate_report_from_macro_pkt inp).getD 4 0 = byteAt inp 4
      ∧ (populate_report_from_macro_pkt inp).getD 5 0 = byteAt inp 5
      ∧ (populate_report_from_macro_pkt inp).getD 6 0 = byteAt inp 6) := by
  constructor
  · have e3 : byteAt inp 3 * 16 % 256 = byteAt inp 3 * 16 :=
      Nat.mod_eq_of_lt (by omega)
    have e4 : byteAt inp 4 * 16 % 256 = byteAt inp 4 * 16 :=
      Nat.mod_eq_of_lt (by omega)
    have e5 : byteAt inp 5 * 16 % 256 = byteAt inp 5 * 16 :=
      Nat.mod_eq_of_lt (by omega)
    have e6 : byteAt inp 6 * 16 % 256 = byteAt inp 6 * 16 :=
      Nat.mod_eq_of_lt (by omega)
    have hres : (decide (byteAt inp 3 ≤ 0x0F ∧ byteAt inp 4 ≤ 0x0F ∧
        byteAt inp 5 ≤ 0x0F ∧ byteAt inp 6 ≤ 0x0F)) = true := by
      simp [h3, h4, h5, h6]
    simp [populate_report_from_serial, smooth, hres, e3, e4, e5, e6]
    refine ⟨?_, ?_, ?_, ?_⟩ <;> omega
  · simp [populate_report_from_macro_pkt]

/-- Witness for C9 amended at a concrete nibble-packed frame. -/
theorem C9_rescale_serial_only_witness :
    (populate_report_from_serial [0, 0, 8, 1, 2, 3, 4, 0] axisInit).1.getD 3 0
      = (axisInit.lx + byteAt [0, 0, 8, 1, 2, 3, 4, 0] 3 * 16) / 2 :=
  (C9_rescale_serial_only [0, 0, 8, 1, 2, 3, 4, 0] axisInit (by decide)
    (by decide) (by decide) (by decide) (by decide) (by decide) (by decide)
    (by decide)).1.1

end NxMicro
